import Mathlib

/-!
Verification of the workflow-orchestration engine of `local_agents`
(`src/local_agents/workflows/orchestrator.py`, with the `TaskResult` data
type from `src/local_agents/base.py`).

The Python code is shallowly embedded:

* Python dicts are ordered association lists (`Ctx`); `ctxSet` models
  `d[k] = v` (updating a present key in place keeps its position, a new key
  is appended, matching Python's insertion-ordered dicts).
* Agents are external collaborators.  They are modelled by a `Behavior`
  argument: given the agent-type tag, the task string, the context and the
  stream flag, the behavior either returns a `TaskResult` (the agent's
  `execute` returned) or raises (any exception escaping `agent_class()` or
  `agent.execute`).
* Wall-clock timing (`time.time()`) is an external effect none of the
  verified properties depend on; every recorded duration is modelled as `0`.
* Python exceptions are the `Except` monad over `PyError`.  An important
  runtime fact is modelled faithfully: `TaskResult.__init__` in `base.py`
  has parameters `(success, output, agent_type, task, context=None,
  error=None)` and does NOT accept an `execution_time` keyword, while every
  failure-path construction in the orchestrator passes `execution_time=...`;
  such a call raises `TypeError` in Python, so those branches are embedded
  as a raised `PyError.typeError` rather than as a constructed result.
  (The successful path only ever assigns `result.execution_time = ...` on an
  existing object, which is legal attribute creation.)
* `config_manager.get_workflow_steps` and `Path.cwd()` are external inputs,
  passed as the `cfg` and `cwd` parameters.
* Rich console / progress-bar output is pure display and is not modelled.

Only the code paths reached by `Workflow.execute_workflow` and
`Workflow.create_custom_workflow` are embedded; the legacy string-typed
branch of `_execute_step` and `_check_dependencies` (kept in the source for
old tests) is unreachable from these two entry points, which always pass
`WorkflowStep` objects.
-/

namespace LocalAgents

/-- A Python value stored in a context dict: the orchestrator stores strings
(outputs, the task, the directory), booleans, nested dicts
(`result.to_dict()`), and `None`. -/
inductive Value where
  | str (s : String)
  | bool (b : Bool)
  | dict (entries : List (String × Value))
  | none
deriving Repr

/-- An ordered string-keyed Python dict. -/
abbrev Ctx := List (String × Value)

/-- `d[k] = v`: overwrite in place if the key is present (keeping its
position, as Python dicts do), else append. -/
def ctxSet : Ctx → String → Value → Ctx
  | [], k, v => [(k, v)]
  | p :: rest, k, v => if p.1 == k then (k, v) :: rest else p :: ctxSet rest k v

/-- `d.get(k)` / `d[k]` lookup. -/
def ctxGet : Ctx → String → Option Value
  | [], _ => Option.none
  | p :: rest, k => if p.1 == k then some p.2 else ctxGet rest k

/-- `k in d`. -/
def ctxContains : Ctx → String → Bool
  | [], _ => false
  | p :: rest, k => p.1 == k || ctxContains rest k

/-- `base.TaskResult`.  `execution_time` is `Option Nat` because the Python
class never initialises that attribute in `__init__`; it only exists after
someone assigns it (`result.execution_time = ...` in the orchestrator's
success path). -/
structure TaskResult where
  success : Bool
  output : String
  agent_type : String
  task : String
  context : Ctx
  error : Option String
  execution_time : Option Nat
deriving Repr

/-- `TaskResult.to_dict` (note: no `execution_time` key in the source). -/
def taskResultToDict (r : TaskResult) : List (String × Value) :=
  [("success", Value.bool r.success),
   ("output", Value.str r.output),
   ("agent_type", Value.str r.agent_type),
   ("task", Value.str r.task),
   ("context", Value.dict r.context),
   ("error", match r.error with | some e => Value.str e | Option.none => Value.none)]

/-- `orchestrator.WorkflowStep` (the mutable `result`/`completed`/... fields
written during execution are never read back on the paths embedded here and
are omitted). -/
structure WorkflowStep where
  agent_type : String
  description : String
  depends_on : List String
  context_mapping : List (String × String)
deriving Repr

/-- `orchestrator.WorkflowResult`. -/
structure WorkflowResult where
  success : Bool
  results : List TaskResult
  workflow_name : String
  task : String
  total_steps : Nat
  completed_steps : Nat
  execution_time : Nat
  error : Option String
  initial_context : Option Ctx
  final_context : Option Ctx
deriving Repr

/-- A Python exception escaping the orchestrator. -/
inductive PyError where
  | valueError (msg : String)
  | typeError (msg : String)
deriving Repr

/-- The message of the `TypeError` raised when the orchestrator constructs
`TaskResult(..., execution_time=...)`, a keyword `base.TaskResult.__init__`
does not accept. -/
def taskResultUnexpectedKwarg : String :=
  "TaskResult.__init__ got an unexpected keyword argument execution_time"

/-- Outcome of one call into an agent collaborator: either the `TaskResult`
it returned, or the exception it raised. -/
inductive AgentOutcome where
  | ret (r : TaskResult)
  | raise (msg : String)

/-- The external agent collaborators: agent type tag, task string, context,
stream flag. -/
def Behavior : Type := String → String → Ctx → Bool → AgentOutcome

/-- The keys of `self.agents` set up in `Workflow.__init__`. -/
def registeredAgents : List String := ["plan", "code", "test", "review"]

/-- `Workflow._customize_task_for_step`. -/
def customizeTaskForStep (step : WorkflowStep) (mainTask : String) : String :=
  if step.agent_type == "plan" then "Create a detailed plan for: " ++ mainTask
  else if step.agent_type == "code" then "Implement the following: " ++ mainTask
  else if step.agent_type == "test" then "Create comprehensive tests for: " ++ mainTask
  else if step.agent_type == "review" then "Review the implementation of: " ++ mainTask
  else step.description ++ ": " ++ mainTask

/-- `Workflow._check_dependencies` (the `WorkflowStep` branch). -/
def checkDependencies (step : WorkflowStep) (completedResults : List TaskResult) : Bool :=
  if step.depends_on.isEmpty then true
  else step.depends_on.all (fun dep =>
    completedResults.any (fun r => r.success && r.agent_type == dep))

/-- One iteration of the context-mapping loop in `Workflow._execute_step`:
`if src in self.current_context: step_context[dst] =
self.current_context[src]`.  Reads always come from the original working
context `ctx`; writes go to the copy `acc`. -/
def remapStep (ctx acc : Ctx) (sd : String × String) : Ctx :=
  if ctxContains ctx sd.1 then ctxSet acc sd.2 ((ctxGet ctx sd.1).getD Value.none) else acc

/-- The context-remap part of `Workflow._execute_step`: copy the working
context, then run the mapping loop over the copy. -/
def applyContextMapping (ctx : Ctx) (mapping : List (String × String)) : Ctx :=
  mapping.foldl (remapStep ctx) ctx

/-- One iteration of the result-context merge loop in
`Workflow._update_context_from_result`: keys starting with `_` are private
and skipped. -/
def mergeEntry (acc : Ctx) (kv : String × Value) : Ctx :=
  if kv.1.startsWith "_" then acc else ctxSet acc kv.1 kv.2

/-- `Workflow._update_context_from_result`. -/
def updateContextFromResult (ctx : Ctx) (step : WorkflowStep) (r : TaskResult) : Ctx :=
  if r.success then
    let c1 := ctxSet ctx (step.agent_type ++ "_output") (Value.str r.output)
    let c2 := ctxSet c1 (step.agent_type ++ "_result") (Value.dict (taskResultToDict r))
    r.context.foldl mergeEntry c2
  else ctx

/-- `Workflow._should_continue_after_failure`. -/
def shouldContinueAfterFailure (step : WorkflowStep) (_r : TaskResult) : Bool :=
  step.agent_type != "plan"

/-- The `WorkflowStep` branch of `Workflow._execute_step`.  The whole branch
body sits in a `try`.  If the agent type is unregistered, the source builds
`TaskResult(..., execution_time=...)`, which raises `TypeError`; that
`TypeError` is caught by the branch's own `except`, whose handler again
builds `TaskResult(..., execution_time=...)` and therefore re-raises
`TypeError` out of `_execute_step`.  The same `TypeError` escapes whenever
the agent construction or `agent.execute` raises.  On a normal agent return
the source only assigns `result.execution_time` (modelled as `0`). -/
def executeStep (B : Behavior) (ctx : Ctx) (step : WorkflowStep) (mainTask : String)
    (stream : Bool) : Except PyError TaskResult :=
  if registeredAgents.contains step.agent_type then
    let stepContext := applyContextMapping ctx step.context_mapping
    let taskDescription := customizeTaskForStep step mainTask
    match B step.agent_type taskDescription stepContext stream with
    | AgentOutcome.ret r => Except.ok { r with execution_time := some 0 }
    | AgentOutcome.raise _ => Except.error (PyError.typeError taskResultUnexpectedKwarg)
  else
    Except.error (PyError.typeError taskResultUnexpectedKwarg)

/-- The per-execution mutable state of the orchestrator: `self.current_context`,
`self.completed_steps`, and the local `results` list of the step loop. -/
structure LoopState where
  ctx : Ctx
  completed : List String
  results : List TaskResult
deriving Repr

/-- The step loop of `Workflow.execute_workflow` (lines 275-304): dependency
check (`continue` on failure, appending nothing), step execution, result
append, context update, completed-step tracking, and the
continuation-policy `break` after a failure of a `plan`-typed step. -/
def runSteps (B : Behavior) (task : String) (stream : Bool) :
    List WorkflowStep → LoopState → Except PyError LoopState
  | [], s => Except.ok s
  | step :: rest, s =>
    if checkDependencies step s.results then
      match executeStep B s.ctx step task stream with
      | Except.error e => Except.error e
      | Except.ok r =>
        let s' : LoopState :=
          { ctx := updateContextFromResult s.ctx step r,
            completed := if r.success then step.agent_type :: s.completed else s.completed,
            results := s.results ++ [r] }
        if r.success then runSteps B task stream rest s'
        else if shouldContinueAfterFailure step r then runSteps B task stream rest s'
        else Except.ok s'
    else
      runSteps B task stream rest s

/-- The builtin `workflows` table of `Workflow._get_workflow_definition`. -/
def builtinWorkflowSteps (workflowName : String) : List WorkflowStep :=
  if workflowName == "feature-dev" then
    [⟨"plan", "Create implementation plan", [], []⟩,
     ⟨"code", "Generate code implementation", ["plan"], [("plan_output", "implementation_plan")]⟩,
     ⟨"test", "Create and run tests", ["code"], [("code_output", "code_to_test")]⟩,
     ⟨"review", "Review implementation", ["code"], [("code_output", "code_to_review")]⟩]
  else if workflowName == "bug-fix" then
    [⟨"plan", "Analyze bug and create fix plan", [], []⟩,
     ⟨"code", "Implement bug fix", ["plan"], [("plan_output", "fix_plan")]⟩,
     ⟨"test", "Test bug fix", ["code"], [("code_output", "fixed_code")]⟩]
  else if workflowName == "code-review" then
    [⟨"review", "Comprehensive code review", [], []⟩]
  else if workflowName == "refactor" then
    [⟨"plan", "Create refactoring plan", [], []⟩,
     ⟨"code", "Implement refactoring", ["plan"], [("plan_output", "refactor_plan")]⟩,
     ⟨"test", "Test refactored code", ["code"], [("code_output", "refactored_code")]⟩,
     ⟨"review", "Review refactored implementation", ["code"], [("code_output", "code_to_review")]⟩]
  else []

/-- `Workflow._get_workflow_definition`: user-configured workflows (the
`cfg` collaborator, `config_manager.get_workflow_steps`) take priority when
non-empty; the configured steps carry no dependencies and no mappings. -/
def getWorkflowDefinition (cfg : String → List String) (workflowName : String) :
    List WorkflowStep :=
  match cfg workflowName with
  | [] => builtinWorkflowSteps workflowName
  | l => l.map (fun stepName => ⟨stepName, "Execute " ++ stepName ++ " agent", [], []⟩)

/-- The content of the dict object the caller passed as `initial_context`,
as it stands after the call: `self.current_context = initial_context or {}`
aliases the caller's dict exactly when that dict is non-empty (a non-empty
dict is truthy), in which case every in-place update of the working context
is visible to the caller, and the caller's dict ends up equal to the final
working context; an empty or absent `initial_context` is replaced by a
fresh `{}` and the caller's dict (if any) is untouched. -/
def callerDictAfter (init : Option Ctx) (finalCtx : Ctx) : Ctx :=
  match init with
  | Option.none => []
  | some d => if d.isEmpty then d else finalCtx

/-- `config_manager.get_workflow_steps` under the default configuration
(`config.py` lines 323-332): the four built-in workflow names map to the
validated `WorkflowConfig` defaults (`feature_development = ["plan", "code",
"test", "review"]`, `bug_fix = ["plan", "code", "test"]`, `code_review =
["review"]`, `refactoring = ["plan", "code", "test", "review"]`), any other
name to `[]`.  `WorkflowConfig`'s validator rejects empty step lists and
`load_config` falls back to these defaults on every load error, so in the
running program `get_workflow_steps` never returns `[]` for these four
names — the config branch of `_get_workflow_definition` always shadows the
built-in `workflows` table for them, yielding steps with no `depends_on`
and no `context_mapping`. -/
def defaultConfigWorkflows : String → List String := fun workflowName =>
  if workflowName == "feature-dev" then ["plan", "code", "test", "review"]
  else if workflowName == "bug-fix" then ["plan", "code", "test"]
  else if workflowName == "code-review" then ["review"]
  else if workflowName == "refactor" then ["plan", "code", "test", "review"]
  else []

/-- Lines 243-247 of `execute_workflow`: `self.current_context =
initial_context or {}` followed by `current_context["main_task"] = task` and
the conditional `current_context["directory"] = str(Path.cwd())`. -/
def initialWorkingContext (task cwd : String) (initialContext : Option Ctx) : Ctx :=
  let ctx0 := ctxSet (initialContext.getD []) "main_task" (Value.str task)
  if ctxContains ctx0 "directory" then ctx0 else ctxSet ctx0 "directory" (Value.str cwd)

/-- `Workflow.execute_workflow`.  Besides the `WorkflowResult`, the model
returns `callerDictAfter initialContext finalCtx`, the content of the dict
object the caller passed as `initial_context` once the call returns. -/
def execute_workflow (B : Behavior) (cfg : String → List String) (cwd : String)
    (workflowName task : String) (initialContext : Option Ctx) (stream : Bool) :
    Except PyError (WorkflowResult × Ctx) :=
  let initialContextCopy := initialContext.getD []
  let workflowSteps := getWorkflowDefinition cfg workflowName
  if workflowSteps.isEmpty then
    Except.error (PyError.valueError ("Unknown workflow: " ++ workflowName))
  else
    match runSteps B task stream workflowSteps
        ⟨initialWorkingContext task cwd initialContext, [], []⟩ with
    | Except.error e => Except.error e
    | Except.ok s =>
      let results := s.results
      let successfulResults := results.filter (fun r => r.success)
      Except.ok
        ({ success := if results.isEmpty then false else results.all (fun r => r.success),
           results := results,
           workflow_name := workflowName,
           task := task,
           total_steps := workflowSteps.length,
           completed_steps := successfulResults.length,
           execution_time := 0,
           error :=
             if results.all (fun r => r.success) || results.isEmpty then Option.none
             else some ("Failed steps: " ++ toString (results.length - successfulResults.length)),
           initial_context := some initialContextCopy,
           final_context := some s.ctx },
         callerDictAfter initialContext s.ctx)

/-- The step-building loop of `Workflow.create_custom_workflow`: validate
each listed agent type against `self.agents` (raising `ValueError` at the
first unknown one, before any execution), and give step `i` a dependency on
step `i-1`'s agent type. -/
def buildCustomSteps : Option String → List String → Except PyError (List WorkflowStep)
  | _, [] => Except.ok []
  | prev, t :: rest =>
    if registeredAgents.contains t then
      match buildCustomSteps (some t) rest with
      | Except.ok l =>
        Except.ok ({ agent_type := t, description := "Execute " ++ t ++ " agent",
                     depends_on := match prev with | Option.none => [] | some p => [p],
                     context_mapping := [] } :: l)
      | Except.error e => Except.error e
    else Except.error (PyError.valueError ("Unknown agent type: " ++ t))

/-- The execution loop of `Workflow.create_custom_workflow` (lines 737-748):
no dependency check, no completed-step tracking, and no continuation check —
every step is executed and appended, whatever the previous outcomes.  The
source calls `self._execute_step(step, task, stream)`, which binds `stream`
to `_execute_step`'s (unused) `context` parameter, so the agents are always
invoked with `stream=False`. -/
def runCustomSteps (B : Behavior) (task : String) :
    List WorkflowStep → LoopState → Except PyError LoopState
  | [], s => Except.ok s
  | step :: rest, s =>
    match executeStep B s.ctx step task false with
    | Except.error e => Except.error e
    | Except.ok r =>
      runCustomSteps B task rest
        { ctx := updateContextFromResult s.ctx step r,
          completed := s.completed,
          results := s.results ++ [r] }

/-- `Workflow.create_custom_workflow`. -/
def create_custom_workflow (B : Behavior) (steps : List String) (task : String)
    (context : Option Ctx) (_stream : Bool) : Except PyError WorkflowResult :=
  match buildCustomSteps Option.none steps with
  | Except.error e => Except.error e
  | Except.ok workflowSteps =>
    let initialContextCopy := context.getD []
    let ctx0 := ctxSet (context.getD []) "main_task" (Value.str task)
    match runCustomSteps B task workflowSteps ⟨ctx0, [], []⟩ with
    | Except.error e => Except.error e
    | Except.ok s =>
      let results := s.results
      let successfulResults := results.filter (fun r => r.success)
      Except.ok
        { success := if results.isEmpty then false else results.all (fun r => r.success),
          results := results,
          workflow_name := "custom",
          task := task,
          total_steps := workflowSteps.length,
          completed_steps := successfulResults.length,
          execution_time := 0,
          error :=
            if results.all (fun r => r.success) || results.isEmpty then Option.none
            else some ("Failed steps: " ++ toString (results.length - successfulResults.length)),
          initial_context := some initialContextCopy,
          final_context := some s.ctx }

/-- The step loop of `execute_workflow` again, instrumented to record, in
order, every context actually handed to an agent's `execute` call (the
remapped copy built inside `_execute_step`).  It mirrors `runSteps` branch
for branch; when the agent type is unregistered, `_execute_step` raises
before any agent is constructed, so nothing is recorded and the run stops. -/
def runStepsCalls (B : Behavior) (task : String) (stream : Bool) :
    List WorkflowStep → LoopState → List Ctx
  | [], _ => []
  | step :: rest, s =>
    if checkDependencies step s.results then
      if registeredAgents.contains step.agent_type then
        let stepContext := applyContextMapping s.ctx step.context_mapping
        stepContext ::
          match B step.agent_type (customizeTaskForStep step task) stepContext stream with
          | AgentOutcome.raise _ => []
          | AgentOutcome.ret r0 =>
            let r : TaskResult := { r0 with execution_time := some 0 }
            let s' : LoopState :=
              { ctx := updateContextFromResult s.ctx step r,
                completed := if r.success then step.agent_type :: s.completed else s.completed,
                results := s.results ++ [r] }
            if r.success then runStepsCalls B task stream rest s'
            else if shouldContinueAfterFailure step r then runStepsCalls B task stream rest s'
            else []
      else []
    else
      runStepsCalls B task stream rest s

/-! ### Association-list (Python dict) lemmas -/

theorem ctxGet_ctxSet (c : Ctx) (k k' : String) (v : Value) :
    ctxGet (ctxSet c k v) k' = if k == k' then some v else ctxGet c k' := by
  induction c with
  | nil => simp [ctxSet, ctxGet]
  | cons p rest ih =>
    by_cases h : p.1 = k
    · subst h
      simp only [ctxSet, beq_self_eq_true, if_true]
      by_cases hp : p.1 = k' <;> simp [ctxGet, hp, beq_iff_eq]
    · have hbk : (p.1 == k) = false := by simp [beq_iff_eq, h]
      simp only [ctxSet, hbk, Bool.false_eq_true, if_false]
      by_cases hp : p.1 = k'
      · have hk' : ¬(k = k') := fun he => h (hp.trans he.symm)
        simp [ctxGet, hp, beq_iff_eq, hk']
      · simp [ctxGet, hp, beq_iff_eq, ih]

theorem ctxContains_eq_isSome (c : Ctx) (k : String) :
    ctxContains c k = (ctxGet c k).isSome := by
  induction c with
  | nil => simp [ctxContains, ctxGet]
  | cons p rest ih =>
    by_cases h : p.1 = k <;> simp [ctxContains, ctxGet, h, ih, beq_iff_eq]

theorem ctxContains_ctxSet (c : Ctx) (k k' : String) (v : Value) :
    ctxContains (ctxSet c k v) k' = (k == k' || ctxContains c k') := by
  rw [ctxContains_eq_isSome, ctxGet_ctxSet, ctxContains_eq_isSome]
  by_cases h : k = k' <;> simp [h]

theorem ctxContains_ctxSet_of (c : Ctx) (k k' : String) (v : Value)
    (h : ctxContains c k' = true) : ctxContains (ctxSet c k v) k' = true := by
  rw [ctxContains_ctxSet, h, Bool.or_true]

theorem ctxGet_isSome_of_contains (c : Ctx) (k : String) (h : ctxContains c k = true) :
    ∃ v, ctxGet c k = some v := by
  rw [ctxContains_eq_isSome] at h
  exact Option.isSome_iff_exists.mp h

/-! ### Context-mapping (remap) lemmas -/

theorem foldl_remapStep_get_of_not_mem (ctx : Ctx) (k : String) :
    ∀ (mapping : List (String × String)) (acc : Ctx), k ∉ mapping.map Prod.snd →
      ctxGet (mapping.foldl (remapStep ctx) acc) k = ctxGet acc k := by
  intro mapping
  induction mapping with
  | nil => intro acc _; rfl
  | cons sd rest ih =>
    intro acc hk
    simp only [List.map_cons, List.mem_cons, not_or] at hk
    rw [List.foldl_cons, ih _ hk.2]
    unfold remapStep
    by_cases hc : ctxContains ctx sd.1
    · rw [if_pos hc, ctxGet_ctxSet]
      have hne : ¬(sd.2 = k) := fun he => hk.1 he.symm
      simp [beq_iff_eq, hne]
    · rw [if_neg hc]

theorem foldl_remapStep_get_of_mem (ctx : Ctx) :
    ∀ (mapping : List (String × String)) (acc : Ctx) (src dst : String),
      (mapping.map Prod.snd).Nodup → (src, dst) ∈ mapping →
      ctxContains ctx src = true →
      ctxGet (mapping.foldl (remapStep ctx) acc) dst = ctxGet ctx src := by
  intro mapping
  induction mapping with
  | nil => intro acc src dst _ hmem; cases hmem
  | cons sd rest ih =>
    intro acc src dst hnd hmem hsrc
    simp only [List.map_cons, List.nodup_cons] at hnd
    rcases List.mem_cons.mp hmem with heq | htail
    · subst heq
      rw [List.foldl_cons]
      have hdst : dst ∉ rest.map Prod.snd := hnd.1
      rw [foldl_remapStep_get_of_not_mem ctx dst rest _ hdst]
      unfold remapStep
      rw [if_pos hsrc, ctxGet_ctxSet]
      obtain ⟨v, hv⟩ := ctxGet_isSome_of_contains ctx src hsrc
      simp [hv]
    · rw [List.foldl_cons]
      exact ih _ src dst hnd.2 htail hsrc

theorem foldl_remapStep_contains (ctx : Ctx) (k : String) :
    ∀ (mapping : List (String × String)) (acc : Ctx), ctxContains acc k = true →
      ctxContains (mapping.foldl (remapStep ctx) acc) k = true := by
  intro mapping
  induction mapping with
  | nil => intro acc h; exact h
  | cons sd rest ih =>
    intro acc h
    rw [List.foldl_cons]
    apply ih
    unfold remapStep
    by_cases hc : ctxContains ctx sd.1
    · rw [if_pos hc]; exact ctxContains_ctxSet_of _ _ _ _ h
    · rw [if_neg hc]; exact h

theorem applyContextMapping_contains (ctx : Ctx) (mapping : List (String × String))
    (k : String) (h : ctxContains ctx k = true) :
    ctxContains (applyContextMapping ctx mapping) k = true :=
  foldl_remapStep_contains ctx k mapping ctx h

/-! ### Context-update lemmas -/

theorem foldl_mergeEntry_contains (k : String) :
    ∀ (entries : List (String × Value)) (acc : Ctx), ctxContains acc k = true →
      ctxContains (entries.foldl mergeEntry acc) k = true := by
  intro entries
  induction entries with
  | nil => intro acc h; exact h
  | cons kv rest ih =>
    intro acc h
    rw [List.foldl_cons]
    apply ih
    unfold mergeEntry
    by_cases hp : kv.1.startsWith "_"
    · rw [if_pos hp]; exact h
    · rw [if_neg hp]; exact ctxContains_ctxSet_of _ _ _ _ h

theorem updateContextFromResult_contains (ctx : Ctx) (step : WorkflowStep) (r : TaskResult)
    (k : String) (h : ctxContains ctx k = true) :
    ctxContains (updateContextFromResult ctx step r) k = true := by
  unfold updateContextFromResult
  by_cases hs : r.success
  · rw [if_pos hs]
    exact foldl_mergeEntry_contains k r.context _
      (ctxContains_ctxSet_of _ _ _ _ (ctxContains_ctxSet_of _ _ _ _ h))
  · rw [if_neg hs]; exact h

/-! ### Dependency-check characterisation -/

theorem checkDependencies_spec (step : WorkflowStep) (rs : List TaskResult)
    (h : checkDependencies step rs = true) :
    ∀ dep ∈ step.depends_on, ∃ r ∈ rs, r.success = true ∧ r.agent_type = dep := by
  intro dep hdep
  unfold checkDependencies at h
  by_cases he : step.depends_on.isEmpty
  · rw [List.isEmpty_iff] at he
    rw [he] at hdep
    cases hdep
  · rw [if_neg he] at h
    have hall := List.all_eq_true.mp h dep hdep
    obtain ⟨r, hr, hb⟩ := List.any_eq_true.mp hall
    simp only [Bool.and_eq_true, beq_iff_eq] at hb
    exact ⟨r, hr, hb.1, hb.2⟩

/-! ### Properties of the `execute_workflow` step loop -/

/-- Soundness of the step loop with respect to the dependency gate: every
run that completes yields, for the step list, a per-step record `t` of
`Option TaskResult` — `some r` for an attempted step (its appended result),
`none` for a step that was skipped or never reached — such that the loop's
appended results are exactly the attempted ones in order, and every
attempted step passed its dependency check against precisely the results
appended before it. -/
theorem runSteps_attempts (B : Behavior) (task : String) (stream : Bool) :
    ∀ (steps : List WorkflowStep) (s s' : LoopState),
      runSteps B task stream steps s = Except.ok s' →
      ∃ t : List (Option TaskResult),
        t.length = steps.length ∧
        s'.results = s.results ++ t.filterMap id ∧
        ∀ i step r, steps[i]? = some step → t[i]? = some (some r) →
          checkDependencies step (s.results ++ (t.take i).filterMap id) = true := by
  intro steps
  induction steps with
  | nil =>
    intro s s' h
    simp only [runSteps, Except.ok.injEq] at h
    subst h
    exact ⟨[], rfl, by simp, by intro i step r hi _; cases hi⟩
  | cons step rest ih =>
    intro s s' h
    simp only [runSteps] at h
    by_cases hdep : checkDependencies step s.results
    · rw [if_pos hdep] at h
      cases hexec : executeStep B s.ctx step task stream with
      | error e => rw [hexec] at h; cases h
      | ok r =>
        rw [hexec] at h
        simp only at h
        by_cases hs : r.success
        · rw [if_pos hs] at h
          obtain ⟨t, hlen, hres, hdeps⟩ := ih _ _ h
          refine ⟨some r :: t, by simp [hlen], ?_, ?_⟩
          · simpa [List.filterMap_cons] using hres
          · intro i st r' hi ht
            cases i with
            | zero =>
              simp only [List.getElem?_cons_zero, Option.some.injEq] at hi ht
              subst hi
              simpa using hdep
            | succ j =>
              simp only [List.getElem?_cons_succ] at hi ht
              have := hdeps j st r' hi ht
              simpa [List.take_succ_cons, List.filterMap_cons] using this
        · rw [if_neg hs] at h
          by_cases hcont : shouldContinueAfterFailure step r
          · rw [if_pos hcont] at h
            obtain ⟨t, hlen, hres, hdeps⟩ := ih _ _ h
            refine ⟨some r :: t, by simp [hlen], ?_, ?_⟩
            · simpa [List.filterMap_cons] using hres
            · intro i st r' hi ht
              cases i with
              | zero =>
                simp only [List.getElem?_cons_zero, Option.some.injEq] at hi ht
                subst hi
                simpa using hdep
              | succ j =>
                simp only [List.getElem?_cons_succ] at hi ht
                have := hdeps j st r' hi ht
                simpa [List.take_succ_cons, List.filterMap_cons] using this
          · rw [if_neg hcont] at h
            simp only [Except.ok.injEq] at h
            subst h
            refine ⟨some r :: List.replicate rest.length Option.none, by simp, ?_, ?_⟩
            · simp [List.filterMap_cons]
            · intro i st r' hi ht
              cases i with
              | zero =>
                simp only [List.getElem?_cons_zero, Option.some.injEq] at hi ht
                subst hi
                simpa using hdep
              | succ j =>
                simp only [List.getElem?_cons_succ] at ht
                have hmem := List.getElem?_mem ht
                have := List.eq_of_mem_replicate hmem
                cases this
    · rw [if_neg hdep] at h
      obtain ⟨t, hlen, hres, hdeps⟩ := ih _ _ h
      refine ⟨Option.none :: t, by simp [hlen], ?_, ?_⟩
      · simpa [List.filterMap_cons] using hres
      · intro i st r' hi ht
        cases i with
        | zero => simp at ht
        | succ j =>
          simp only [List.getElem?_cons_succ] at hi ht
          have := hdeps j st r' hi ht
          simpa [List.take_succ_cons, List.filterMap_cons] using this

/-- The step loop never removes a key from the working context. -/
theorem runSteps_contains (B : Behavior) (task : String) (stream : Bool) (k : String) :
    ∀ (steps : List WorkflowStep) (s s' : LoopState),
      runSteps B task stream steps s = Except.ok s' →
      ctxContains s.ctx k = true → ctxContains s'.ctx k = true := by
  intro steps
  induction steps with
  | nil =>
    intro s s' h hk
    simp only [runSteps, Except.ok.injEq] at h
    subst h
    exact hk
  | cons step rest ih =>
    intro s s' h hk
    simp only [runSteps] at h
    by_cases hdep : checkDependencies step s.results
    · rw [if_pos hdep] at h
      cases hexec : executeStep B s.ctx step task stream with
      | error e => rw [hexec] at h; cases h
      | ok r =>
        rw [hexec] at h
        simp only at h
        have hk' : ctxContains (updateContextFromResult s.ctx step r) k = true :=
          updateContextFromResult_contains s.ctx step r k hk
        by_cases hs : r.success
        · rw [if_pos hs] at h
          exact ih _ _ h hk'
        · rw [if_neg hs] at h
          by_cases hcont : shouldContinueAfterFailure step r
          · rw [if_pos hcont] at h
            exact ih _ _ h hk'
          · rw [if_neg hcont] at h
            simp only [Except.ok.injEq] at h
            subst h
            exact hk'
    · rw [if_neg hdep] at h
      exact ih _ _ h hk

/-! ### Properties of the `create_custom_workflow` execution loop -/

/-- The custom-workflow loop appends exactly one result for every step:
there is no dependency skip and no abort in that loop. -/
theorem runCustomSteps_length (B : Behavior) (task : String) :
    ∀ (steps : List WorkflowStep) (s s' : LoopState),
      runCustomSteps B task steps s = Except.ok s' →
      s'.results.length = s.results.length + steps.length := by
  intro steps
  induction steps with
  | nil =>
    intro s s' h
    simp only [runCustomSteps, Except.ok.injEq] at h
    subst h
    simp
  | cons step rest ih =>
    intro s s' h
    simp only [runCustomSteps] at h
    cases hexec : executeStep B s.ctx step task false with
    | error e => rw [hexec] at h; cases h
    | ok r =>
      rw [hexec] at h
      have := ih _ _ h
      simp only [List.length_append, List.length_cons, List.length_nil] at this ⊢
      omega

/-! ### Counting successes -/

theorem filter_success_length_eq_iff (l : List TaskResult) :
    ((l.filter (fun r => r.success)).length = l.length) ↔ (∀ r ∈ l, r.success = true) := by
  constructor
  · intro h r hr
    by_contra hs
    have hlt : (l.filter (fun r => r.success)).length < l.length :=
      List.length_filter_lt_length_iff_exists.mpr ⟨r, hr, by simpa using hs⟩
    omega
  · intro h
    have : l.filter (fun r => r.success) = l := List.filter_eq_self.mpr (fun a ha => h a ha)
    rw [this]

/-- The aggregate `success` flag computed at the end of both workflow entry
points agrees with "every recorded result succeeded and at least one result
was recorded". -/
theorem success_flag_iff (l : List TaskResult) :
    ((if l.isEmpty then false else l.all (fun r => r.success)) = true)
      ↔ ((l.filter (fun r => r.success)).length = l.length ∧ 0 < l.length) := by
  by_cases he : l.isEmpty
  · rw [if_pos he]
    rw [List.isEmpty_iff] at he
    subst he
    simp
  · rw [if_neg he]
    have hpos : 0 < l.length := by
      cases l with
      | nil => simp at he
      | cons a l => simp
    rw [List.all_eq_true, filter_success_length_eq_iff]
    constructor
    · intro h; exact ⟨h, hpos⟩
    · intro h; exact h.1

/-! ### Destructuring successful runs of the two entry points -/

theorem execute_workflow_ok_spec (B : Behavior) (cfg : String → List String)
    (cwd workflowName task : String) (init : Option Ctx) (stream : Bool)
    (R : WorkflowResult) (cd : Ctx)
    (h : execute_workflow B cfg cwd workflowName task init stream = Except.ok (R, cd)) :
    ∃ s : LoopState,
      runSteps B task stream (getWorkflowDefinition cfg workflowName)
          ⟨initialWorkingContext task cwd init, [], []⟩ = Except.ok s ∧
      R.results = s.results ∧
      R.total_steps = (getWorkflowDefinition cfg workflowName).length ∧
      R.completed_steps = (s.results.filter (fun r => r.success)).length ∧
      R.success = (if s.results.isEmpty then false else s.results.all (fun r => r.success)) ∧
      R.initial_context = some (init.getD []) ∧
      R.final_context = some s.ctx ∧
      cd = callerDictAfter init s.ctx := by
  simp only [execute_workflow] at h
  by_cases hemp : (getWorkflowDefinition cfg workflowName).isEmpty
  · rw [if_pos hemp] at h; cases h
  · rw [if_neg hemp] at h
    cases hrun : runSteps B task stream (getWorkflowDefinition cfg workflowName)
        ⟨initialWorkingContext task cwd init, [], []⟩ with
    | error e => rw [hrun] at h; cases h
    | ok s =>
      rw [hrun] at h
      simp only [Except.ok.injEq, Prod.mk.injEq] at h
      obtain ⟨hR, hcd⟩ := h
      subst hR
      exact ⟨s, rfl, rfl, rfl, rfl, rfl, rfl, rfl, hcd.symm⟩

theorem create_custom_workflow_ok_spec (B : Behavior) (steps : List String) (task : String)
    (context : Option Ctx) (stream : Bool) (R : WorkflowResult)
    (h : create_custom_workflow B steps task context stream = Except.ok R) :
    ∃ (ws : List WorkflowStep) (s : LoopState),
      buildCustomSteps Option.none steps = Except.ok ws ∧
      runCustomSteps B task ws
          ⟨ctxSet (context.getD []) "main_task" (Value.str task), [], []⟩ = Except.ok s ∧
      R.results = s.results ∧
      R.total_steps = ws.length ∧
      R.completed_steps = (s.results.filter (fun r => r.success)).length ∧
      R.success = (if s.results.isEmpty then false else s.results.all (fun r => r.success)) := by
  simp only [create_custom_workflow] at h
  split at h
  · cases h
  · rename_i ws hbuild
    split at h
    · cases h
    · rename_i s hrun
      simp only [Except.ok.injEq] at h
      subst h
      exact ⟨ws, s, hbuild, hrun, rfl, rfl, rfl, rfl⟩

/-! ### The initial working context -/

theorem initialWorkingContext_contains_main_task (task cwd : String) (init : Option Ctx) :
    ctxContains (initialWorkingContext task cwd init) "main_task" = true := by
  unfold initialWorkingContext
  have h0 : ctxContains (ctxSet (init.getD []) "main_task" (Value.str task)) "main_task" = true := by
    rw [ctxContains_ctxSet]; simp
  by_cases hd : ctxContains (ctxSet (init.getD []) "main_task" (Value.str task)) "directory"
  · rw [if_pos hd]; exact h0
  · rw [if_neg hd]; exact ctxContains_ctxSet_of _ _ _ _ h0

theorem initialWorkingContext_contains_directory (task cwd : String) (init : Option Ctx) :
    ctxContains (initialWorkingContext task cwd init) "directory" = true := by
  unfold initialWorkingContext
  by_cases hd : ctxContains (ctxSet (init.getD []) "main_task" (Value.str task)) "directory"
  · rw [if_pos hd]; exact hd
  · rw [if_neg hd]; rw [ctxContains_ctxSet]; simp

theorem initialWorkingContext_directory_default (task cwd : String) (init : Option Ctx)
    (h : ctxContains (init.getD []) "directory" = false) :
    ctxGet (initialWorkingContext task cwd init) "directory" = some (Value.str cwd) := by
  unfold initialWorkingContext
  have h0 : ctxContains (ctxSet (init.getD []) "main_task" (Value.str task)) "directory" = false := by
    rw [ctxContains_ctxSet, h]
    simp
  rw [if_neg (by rw [h0]; exact Bool.false_ne_true), ctxGet_ctxSet]
  simp

/-! ### Contexts handed to the agents -/

/-- Every context recorded by the instrumented step loop (i.e. every context
actually passed to an agent's `execute`) contains every key the working
context held when the loop started. -/
theorem runStepsCalls_contains (B : Behavior) (task : String) (stream : Bool) (k : String) :
    ∀ (steps : List WorkflowStep) (s : LoopState), ctxContains s.ctx k = true →
      ∀ c ∈ runStepsCalls B task stream steps s, ctxContains c k = true := by
  intro steps
  induction steps with
  | nil => intro s _ c hc; simp [runStepsCalls] at hc
  | cons step rest ih =>
    intro s hk c hc
    simp only [runStepsCalls] at hc
    by_cases hdep : checkDependencies step s.results
    · rw [if_pos hdep] at hc
      by_cases hreg : registeredAgents.contains step.agent_type
      · rw [if_pos hreg] at hc
        rcases List.mem_cons.mp hc with hhead | htail
        · subst hhead
          exact applyContextMapping_contains s.ctx step.context_mapping k hk
        · cases hB : B step.agent_type (customizeTaskForStep step task)
              (applyContextMapping s.ctx step.context_mapping) stream with
          | raise m => rw [hB] at htail; cases htail
          | ret r0 =>
            rw [hB] at htail
            simp only at htail
            by_cases hs : r0.success
            · rw [if_pos hs] at htail
              exact ih _ (updateContextFromResult_contains s.ctx step _ k hk) c htail
            · rw [if_neg hs] at htail
              by_cases hcont : shouldContinueAfterFailure step { r0 with execution_time := some 0 }
              · rw [if_pos hcont] at htail
                exact ih _ (updateContextFromResult_contains s.ctx step _ k hk) c htail
              · rw [if_neg hcont] at htail; cases htail
      · rw [if_neg hreg] at hc; cases hc
    · rw [if_neg hdep] at hc
      exact ih _ hk c hc

/-! ### Concrete collaborators and runs used in the claim instances -/

/-- A configuration collaborator returning no steps for any name.  Because
`config.py`'s validated defaults make `get_workflow_steps` non-empty for
the four built-in workflow names (see `defaultConfigWorkflows`), this
matches the running program only for names outside that set; it is used
below for unknown-workflow inputs and for instances whose observables do
not depend on which resolution branch is taken. -/
def cfg0 : String → List String := fun _ => []

/-- Stub agents that always succeed, echoing the received task. -/
def reviewOk : Behavior := fun t task _ _ =>
  AgentOutcome.ret { success := true, output := "ok", agent_type := t, task := task,
                     context := [], error := Option.none, execution_time := Option.none }

/-- Stub agents where only the `code` agent fails (returning a failed
result, as in the repository's own `test_workflow_execution_with_failures`). -/
def codeFails : Behavior := fun t task _ _ =>
  if t == "code" then
    AgentOutcome.ret { success := false, output := "", agent_type := "code", task := task,
                       context := [], error := some "compile error",
                       execution_time := Option.none }
  else
    AgentOutcome.ret { success := true, output := "ok", agent_type := t, task := task,
                       context := [], error := Option.none, execution_time := Option.none }

/-- Stub agents where only the `plan` agent fails. -/
def planFails : Behavior := fun t task _ _ =>
  if t == "plan" then
    AgentOutcome.ret { success := false, output := "", agent_type := "plan", task := task,
                       context := [], error := some "planning failed",
                       execution_time := Option.none }
  else
    AgentOutcome.ret { success := true, output := "done", agent_type := t, task := task,
                       context := [], error := Option.none, execution_time := Option.none }

/-- Stub agents whose `execute` always raises. -/
def alwaysRaise : Behavior := fun _ _ _ _ => AgentOutcome.raise "boom"

/-- Stub agents that echo the received task string into `result.task`. -/
def echoTask : Behavior := fun t task ctx _ =>
  AgentOutcome.ret { success := true, output := "", agent_type := t, task := task,
                     context := ctx, error := Option.none, execution_time := Option.none }

/-- Stub agents for the context-propagation scenario: the planner outputs
`PLAN-XYZ`; every other agent succeeds and echoes its received context into
its result's context. -/
def planXYZ : Behavior := fun t task ctx _ =>
  if t == "plan" then
    AgentOutcome.ret { success := true, output := "PLAN-XYZ", agent_type := "plan",
                       task := task, context := [], error := Option.none,
                       execution_time := Option.none }
  else
    AgentOutcome.ret { success := true, output := "done", agent_type := t, task := task,
                       context := ctx, error := Option.none, execution_time := Option.none }

/-- The result recorded for the single `review` step of a `code-review` run
of `reviewOk` on task `"t"`. -/
def rReview : TaskResult :=
  { success := true, output := "ok", agent_type := "review",
    task := "Review the implementation of: t", context := [],
    error := Option.none, execution_time := some 0 }

/-- `rReview.to_dict()` as it is stored under the `review_result` key. -/
def reviewResultDict : Value :=
  Value.dict [("success", Value.bool true), ("output", Value.str "ok"),
              ("agent_type", Value.str "review"),
              ("task", Value.str "Review the implementation of: t"),
              ("context", Value.dict []), ("error", Value.none)]

/-- The `WorkflowResult` of `execute_workflow reviewOk cfg0 "/" "code-review"
"t" none false`. -/
def R0 : WorkflowResult :=
  { success := true, results := [rReview], workflow_name := "code-review", task := "t",
    total_steps := 1, completed_steps := 1, execution_time := 0, error := Option.none,
    initial_context := some [],
    final_context := some [("main_task", Value.str "t"), ("directory", Value.str "/"),
                           ("review_output", Value.str "ok"),
                           ("review_result", reviewResultDict)] }

/-- The final working context of the `code-review` run started from the
caller-supplied context `{"a": "1"}`. -/
def fc1 : Ctx :=
  [("a", Value.str "1"), ("main_task", Value.str "t"), ("directory", Value.str "/"),
   ("review_output", Value.str "ok"), ("review_result", reviewResultDict)]

/-- The `WorkflowResult` of `execute_workflow reviewOk cfg0 "/" "code-review"
"t" (some {"a": "1"}) false`. -/
def R1 : WorkflowResult :=
  { success := true, results := [rReview], workflow_name := "code-review", task := "t",
    total_steps := 1, completed_steps := 1, execution_time := 0, error := Option.none,
    initial_context := some [("a", Value.str "1")],
    final_context := some fc1 }

/-- The `WorkflowResult` of `create_custom_workflow reviewOk ["review"] "t"
none false`. -/
def Rc : WorkflowResult :=
  { success := true, results := [rReview], workflow_name := "custom", task := "t",
    total_steps := 1, completed_steps := 1, execution_time := 0, error := Option.none,
    initial_context := some [],
    final_context := some [("main_task", Value.str "t"),
                           ("review_output", Value.str "ok"),
                           ("review_result", reviewResultDict)] }

/-! ### C1 -/

/-- C1: in `execute_workflow`, a step with a non-empty `depends_on` list is
attempted (contributing a `TaskResult` to `WorkflowResult.results`) only if
every dependency tag equals the `agent_type` of some earlier-appended result
with `success = true`; a step whose dependencies are unmet is skipped
entirely and contributes no entry to `results`, while `total_steps` is the
length of the full resolved step list.  The per-step record `t` assigns
`some r` to attempted steps and `none` to skipped or unreached ones;
`results` is exactly the attempted results in order. -/
theorem C1_dependency_gating : ∀ (B : Behavior) (cfg : String → List String)
    (cwd workflowName task : String) (init : Option Ctx) (stream : Bool)
    (R : WorkflowResult) (cd : Ctx),
    execute_workflow B cfg cwd workflowName task init stream = Except.ok (R, cd) →
    R.total_steps = (getWorkflowDefinition cfg workflowName).length ∧
    ∃ t : List (Option TaskResult),
      t.length = (getWorkflowDefinition cfg workflowName).length ∧
      R.results = t.filterMap id ∧
      ∀ i step r, (getWorkflowDefinition cfg workflowName)[i]? = some step →
        t[i]? = some (some r) →
        ∀ dep ∈ step.depends_on,
          ∃ r' ∈ (t.take i).filterMap id, r'.success = true ∧ r'.agent_type = dep := by
  intro B cfg cwd workflowName task init stream R cd h
  obtain ⟨s, hrun, hres, htot, -, -, -, -, -⟩ :=
    execute_workflow_ok_spec B cfg cwd workflowName task init stream R cd h
  obtain ⟨t, hlen, hres', hdeps⟩ := runSteps_attempts B task stream _ _ _ hrun
  refine ⟨htot, t, hlen, ?_, ?_⟩
  · rw [hres, hres']
    simp
  · intro i step r hi ht dep hdep
    have hc := hdeps i step r hi ht
    simp only [List.nil_append] at hc
    exact checkDependencies_spec step _ hc dep hdep

theorem C1_dependency_gating_witness :
    R0.total_steps = (getWorkflowDefinition cfg0 "code-review").length ∧
    ∃ t : List (Option TaskResult),
      t.length = (getWorkflowDefinition cfg0 "code-review").length ∧
      R0.results = t.filterMap id ∧
      ∀ i step r, (getWorkflowDefinition cfg0 "code-review")[i]? = some step →
        t[i]? = some (some r) →
        ∀ dep ∈ step.depends_on,
          ∃ r' ∈ (t.take i).filterMap id, r'.success = true ∧ r'.agent_type = dep :=
  C1_dependency_gating reviewOk cfg0 "/" "code-review" "t" Option.none false R0 [] rfl

/-! ### C2 -/

/-- Unfolding of the step loop at a dependency-free step whose agent type is
not `"plan"`: the dependency check passes trivially and, whatever the
outcome's success flag, the loop records the result and continues. -/
theorem runSteps_cons_nodeps_nonplan (B : Behavior) (task : String) (stream : Bool)
    (step : WorkflowStep) (rest : List WorkflowStep) (s : LoopState)
    (hdep : step.depends_on = []) (hag : step.agent_type ≠ "plan") :
    runSteps B task stream (step :: rest) s =
      match executeStep B s.ctx step task stream with
      | Except.error e => Except.error e
      | Except.ok r =>
        runSteps B task stream rest
          { ctx := updateContextFromResult s.ctx step r,
            completed := if r.success then step.agent_type :: s.completed else s.completed,
            results := s.results ++ [r] } := by
  have hchk : checkDependencies step s.results = true := by
    simp [checkDependencies, hdep]
  simp only [runSteps]
  rw [if_pos hchk]
  cases hexec : executeStep B s.ctx step task stream with
  | error e => rfl
  | ok r =>
    by_cases hr : r.success
    · simp [hr]
    · simp [hr, shouldContinueAfterFailure, bne_iff_ne, hag]

/-- Unfolding of the step loop at a dependency-free step whose agent type is
`"plan"`: the result is recorded, and the loop continues exactly when it
succeeded (a failed plan step breaks the loop). -/
theorem runSteps_cons_nodeps_plan (B : Behavior) (task : String) (stream : Bool)
    (step : WorkflowStep) (rest : List WorkflowStep) (s : LoopState)
    (hdep : step.depends_on = []) (hag : step.agent_type = "plan") :
    runSteps B task stream (step :: rest) s =
      match executeStep B s.ctx step task stream with
      | Except.error e => Except.error e
      | Except.ok r =>
        if r.success then
          runSteps B task stream rest
            { ctx := updateContextFromResult s.ctx step r,
              completed := step.agent_type :: s.completed,
              results := s.results ++ [r] }
        else
          Except.ok { ctx := updateContextFromResult s.ctx step r,
                      completed := s.completed, results := s.results ++ [r] } := by
  have hchk : checkDependencies step s.results = true := by
    simp [checkDependencies, hdep]
  simp only [runSteps]
  rw [if_pos hchk]
  cases hexec : executeStep B s.ctx step task stream with
  | error e => rfl
  | ok r =>
    by_cases hr : r.success
    · simp [hr]
    · simp [hr, shouldContinueAfterFailure, hag]

/-- The four dependency- and mapping-free steps the config-backed resolver
produces for `feature-dev`. -/
def planStepCfg : WorkflowStep := ⟨"plan", "Execute plan agent", [], []⟩

def codeStepCfg : WorkflowStep := ⟨"code", "Execute code agent", [], []⟩

def testStepCfg : WorkflowStep := ⟨"test", "Execute test agent", [], []⟩

def reviewStepCfg : WorkflowStep := ⟨"review", "Execute review agent", [], []⟩

/-- Every completing run of the config-resolved `feature-dev` step list
either stops with exactly one appended result — a failed plan — or appends
exactly four results, one per step: there are no dependencies to skip on,
and only a plan failure breaks the loop. -/
theorem runSteps_featureDevCfg (B : Behavior) (task : String) (stream : Bool)
    (s s' : LoopState)
    (h : runSteps B task stream [planStepCfg, codeStepCfg, testStepCfg, reviewStepCfg] s
        = Except.ok s') :
    (∃ r1, s'.results = s.results ++ [r1] ∧ r1.success = false) ∨
    s'.results.length = s.results.length + 4 := by
  rw [runSteps_cons_nodeps_plan B task stream planStepCfg _ s rfl rfl] at h
  split at h
  · cases h
  · rename_i r1 hex1
    by_cases hr1 : r1.success
    · rw [if_pos hr1] at h
      rw [runSteps_cons_nodeps_nonplan B task stream codeStepCfg
          [testStepCfg, reviewStepCfg] _ rfl (by decide)] at h
      split at h
      · cases h
      · rename_i r2 hex2
        rw [runSteps_cons_nodeps_nonplan B task stream testStepCfg
            [reviewStepCfg] _ rfl (by decide)] at h
        split at h
        · cases h
        · rename_i r3 hex3
          rw [runSteps_cons_nodeps_nonplan B task stream reviewStepCfg
              [] _ rfl (by decide)] at h
          split at h
          · cases h
          · rename_i r4 hex4
            simp only [runSteps, Except.ok.injEq] at h
            right
            rw [← h]
            simp only [List.length_append, List.length_cons, List.length_nil]
    · rw [if_neg hr1] at h
      simp only [Except.ok.injEq] at h
      left
      simp only [Bool.not_eq_true] at hr1
      exact ⟨r1, by rw [← h], hr1⟩

/-- C2: under the program's actual workflow resolution — `config.py`'s
validated non-empty defaults always shadow the built-in `feature-dev`
template, yielding four dependency-free steps — every `feature-dev` run
whose plan result succeeded and whose code result failed still records all
four steps in `WorkflowResult.results`: the code failure neither aborts the
loop (only plan failures do) nor causes any dependency skip. -/
theorem C2_feature_dev_all_steps :
    ∀ (B : Behavior) (cwd task : String) (init : Option Ctx) (stream : Bool)
      (R : WorkflowResult) (cd : Ctx),
      execute_workflow B defaultConfigWorkflows cwd "feature-dev" task init stream
        = Except.ok (R, cd) →
      R.results[0]?.map (fun r => r.success) = some true →
      R.results[1]?.map (fun r => r.success) = some false →
      R.results.length = 4 ∧ R.total_steps = 4 := by
  intro B cwd task init stream R cd h h0 _hcode
  obtain ⟨s, hrun, hres, htot, -, -, -, -, -⟩ :=
    execute_workflow_ok_spec B defaultConfigWorkflows cwd "feature-dev" task init stream R cd h
  have hrun' : runSteps B task stream [planStepCfg, codeStepCfg, testStepCfg, reviewStepCfg]
      ⟨initialWorkingContext task cwd init, [], []⟩ = Except.ok s := hrun
  refine ⟨?_, by rw [htot]; rfl⟩
  rcases runSteps_featureDevCfg B task stream _ _ hrun' with ⟨r1, hre, hf⟩ | hlen
  · rw [hres, hre] at h0
    simp at h0
    rw [h0] at hf
    cases hf
  · rw [hres]
    simpa using hlen

theorem C2_feature_dev_all_steps_witness :
    ∃ (R : WorkflowResult) (cd : Ctx),
      execute_workflow codeFails defaultConfigWorkflows "/" "feature-dev" "t"
          Option.none false = Except.ok (R, cd) ∧
      R.results.length = 4 ∧ R.total_steps = 4 := by
  have h1 : (execute_workflow codeFails defaultConfigWorkflows "/" "feature-dev" "t"
      Option.none false).toOption.map
        (fun p => (p.1.results.map (fun r => r.success), p.1.total_steps))
      = some ([true, false, true, true], 4) := rfl
  cases hE : execute_workflow codeFails defaultConfigWorkflows "/" "feature-dev" "t"
      Option.none false with
  | error e => rw [hE] at h1; cases h1
  | ok p =>
    obtain ⟨R, cd⟩ := p
    rw [hE] at h1
    have h2 : (R.results.map (fun r => r.success), R.total_steps)
        = ([true, false, true, true], 4) := Option.some.inj h1
    have hmap : R.results.map (fun r => r.success) = [true, false, true, true] :=
      congrArg Prod.fst h2
    have h0 : R.results[0]?.map (fun r => r.success) = some true := by
      rw [← List.getElem?_map, hmap]; rfl
    have hone : R.results[1]?.map (fun r => r.success) = some false := by
      rw [← List.getElem?_map, hmap]; rfl
    exact ⟨R, cd, rfl,
      C2_feature_dev_all_steps codeFails "/" "t" Option.none false R cd hE h0 hone⟩

/-! ### C4 -/

/-- C4 (evaluation at the failing input): when an agent's `execute` raises,
the `except` handler of `_execute_step` itself crashes — it constructs
`TaskResult(..., execution_time=...)`, a keyword `TaskResult.__init__` does
not accept — so a `TypeError` (not a recorded failed `TaskResult`)
propagates out of the step loop and the caller gets no `WorkflowResult`. -/
theorem C4_exception_capture_bug :
    execute_workflow alwaysRaise cfg0 "/" "code-review" "t" Option.none false
      = Except.error (PyError.typeError taskResultUnexpectedKwarg) := rfl

/-! ### C6 -/

/-- C6 (evaluation at the failing input): the unknown-workflow and
unknown-agent-type `ValueError`s do escape, naming the offending workflow
and type, before any agent is invoked — but they are not the only escaping
exceptions: a raising agent makes a `TypeError` escape from the broken
failed-`TaskResult` construction, instead of being returned as data inside
a `WorkflowResult`. -/
theorem C6_propagation_bug :
    execute_workflow reviewOk cfg0 "/" "nonexistent" "t" Option.none false
        = Except.error (PyError.valueError "Unknown workflow: nonexistent") ∧
    create_custom_workflow reviewOk ["plan", "bogus"] "t" Option.none false
        = Except.error (PyError.valueError "Unknown agent type: bogus") ∧
    create_custom_workflow alwaysRaise ["plan"] "t" Option.none false
        = Except.error (PyError.typeError taskResultUnexpectedKwarg) :=
  ⟨rfl, rfl, rfl⟩

/-! ### C3 -/

/-- C3 (counterexample): in `create_custom_workflow(["plan", "code"], ...)`
with a failing planner, the `code` step is still attempted and recorded
after the `plan` step failed — two results, not the single one the claimed
break-on-plan-failure rule would leave. -/
theorem C3_plan_abort_cex :
    (create_custom_workflow planFails ["plan", "code"] "t" Option.none false).toOption.map
        (fun R => R.results.map (fun r => (r.agent_type, r.success)))
      = some [("plan", false), ("code", true)] ∧
    ([("plan", false), ("code", true)] : List (String × Bool)).length ≠ 1 :=
  ⟨rfl, by decide⟩

/-- C3 (amended): only `execute_workflow`'s step loop aborts on failure, and
it does so exactly when the failing step's agent type is `"plan"` (recording
the failed result and attempting nothing further); for any other agent type
it continues with the next step.  `create_custom_workflow`'s loop performs
no continuation check at all: it appends exactly one result per step,
whatever the outcomes. -/
theorem C3_plan_abort_amended :
    (∀ (B : Behavior) (task : String) (stream : Bool) (step : WorkflowStep)
       (rest : List WorkflowStep) (s : LoopState) (r : TaskResult),
       checkDependencies step s.results = true →
       executeStep B s.ctx step task stream = Except.ok r →
       r.success = false →
       ((step.agent_type = "plan" →
           runSteps B task stream (step :: rest) s =
             Except.ok { ctx := updateContextFromResult s.ctx step r,
                         completed := s.completed, results := s.results ++ [r] }) ∧
        (step.agent_type ≠ "plan" →
           runSteps B task stream (step :: rest) s =
             runSteps B task stream rest
               { ctx := updateContextFromResult s.ctx step r,
                 completed := s.completed, results := s.results ++ [r] }))) ∧
    (∀ (B : Behavior) (task : String) (steps : List WorkflowStep) (s s' : LoopState),
       runCustomSteps B task steps s = Except.ok s' →
       s'.results.length = s.results.length + steps.length) := by
  constructor
  · intro B task stream step rest s r hdep hexec hfail
    constructor
    · intro hag
      have hcont : shouldContinueAfterFailure step r = false := by
        simp [shouldContinueAfterFailure, hag]
      simp only [runSteps]
      rw [if_pos hdep, hexec]
      simp only [hfail, Bool.false_eq_true, if_false, hcont]
    · intro hag
      have hcont : shouldContinueAfterFailure step r = true := by
        simp [shouldContinueAfterFailure, bne_iff_ne, hag]
      simp only [runSteps]
      rw [if_pos hdep, hexec]
      simp only [hfail, Bool.false_eq_true, if_false, hcont, if_true]
  · exact runCustomSteps_length

/-- The failed plan result produced by `planFails` under the plan task
template. -/
def rPlanFailT : TaskResult :=
  { success := false, output := "", agent_type := "plan",
    task := "Create a detailed plan for: t", context := [],
    error := some "planning failed", execution_time := some 0 }

/-- The failed code result produced by `codeFails` under the code task
template. -/
def rCodeFailT : TaskResult :=
  { success := false, output := "", agent_type := "code",
    task := "Implement the following: t", context := [],
    error := some "compile error", execution_time := some 0 }

/-- The successful code result produced by `planFails` under the code task
template. -/
def rCodeDone : TaskResult :=
  { success := true, output := "done", agent_type := "code",
    task := "Implement the following: t", context := [],
    error := Option.none, execution_time := some 0 }

def planStep0 : WorkflowStep := ⟨"plan", "Create implementation plan", [], []⟩

def codeStep0 : WorkflowStep := ⟨"code", "Generate code implementation", [], []⟩

def s0 : LoopState := ⟨[], [], []⟩

/-- The loop state after the custom run of `[planStep0, codeStep0]` under
`planFails`. -/
def sC3 : LoopState :=
  { ctx := [("code_output", Value.str "done"),
            ("code_result", Value.dict
              [("success", Value.bool true), ("output", Value.str "done"),
               ("agent_type", Value.str "code"),
               ("task", Value.str "Implement the following: t"),
               ("context", Value.dict []), ("error", Value.none)])],
    completed := [],
    results := [rPlanFailT, rCodeDone] }

theorem C3_plan_abort_witness :
    (runSteps planFails "t" false [planStep0] s0 =
       Except.ok { ctx := updateContextFromResult s0.ctx planStep0 rPlanFailT,
                   completed := s0.completed, results := s0.results ++ [rPlanFailT] }) ∧
    (runSteps codeFails "t" false [codeStep0] s0 =
       runSteps codeFails "t" false []
         { ctx := updateContextFromResult s0.ctx codeStep0 rCodeFailT,
           completed := s0.completed, results := s0.results ++ [rCodeFailT] }) ∧
    sC3.results.length = s0.results.length + 2 :=
  ⟨(C3_plan_abort_amended.1 planFails "t" false planStep0 [] s0 rPlanFailT rfl rfl rfl).1 rfl,
   (C3_plan_abort_amended.1 codeFails "t" false codeStep0 [] s0 rCodeFailT rfl rfl rfl).2
     (by decide),
   C3_plan_abort_amended.2 planFails "t" [planStep0, codeStep0] s0 sC3 rfl⟩

/-! ### C5 -/

/-- C5: for every `WorkflowResult` returned by `execute_workflow` or
`create_custom_workflow`, `completed_steps` counts the recorded results with
`success = true`; `success` holds iff every recorded result succeeded and at
least one was recorded; and the number of recorded results never exceeds
`total_steps`. -/
theorem C5_result_invariants :
    (∀ (B : Behavior) (cfg : String → List String) (cwd workflowName task : String)
       (init : Option Ctx) (stream : Bool) (R : WorkflowResult) (cd : Ctx),
       execute_workflow B cfg cwd workflowName task init stream = Except.ok (R, cd) →
       R.completed_steps = (R.results.filter (fun r => r.success)).length ∧
       (R.success = true ↔ (R.completed_steps = R.results.length ∧ 0 < R.results.length)) ∧
       R.results.length ≤ R.total_steps) ∧
    (∀ (B : Behavior) (steps : List String) (task : String) (context : Option Ctx)
       (stream : Bool) (R : WorkflowResult),
       create_custom_workflow B steps task context stream = Except.ok R →
       R.completed_steps = (R.results.filter (fun r => r.success)).length ∧
       (R.success = true ↔ (R.completed_steps = R.results.length ∧ 0 < R.results.length)) ∧
       R.results.length ≤ R.total_steps) := by
  constructor
  · intro B cfg cwd workflowName task init stream R cd h
    obtain ⟨s, hrun, hres, htot, hcomp, hsucc, -, -, -⟩ :=
      execute_workflow_ok_spec B cfg cwd workflowName task init stream R cd h
    refine ⟨by rw [hcomp, hres], ?_, ?_⟩
    · rw [hsucc, hres, hcomp]
      exact success_flag_iff s.results
    · obtain ⟨t, hlen, hres', -⟩ := runSteps_attempts B task stream _ _ _ hrun
      rw [hres, htot, hres', ← hlen]
      simpa using List.length_filterMap_le id t
  · intro B steps task context stream R h
    obtain ⟨ws, s, -, hrun, hres, htot, hcomp, hsucc⟩ :=
      create_custom_workflow_ok_spec B steps task context stream R h
    refine ⟨by rw [hcomp, hres], ?_, ?_⟩
    · rw [hsucc, hres, hcomp]
      exact success_flag_iff s.results
    · have hlen := runCustomSteps_length B task ws _ _ hrun
      rw [hres, htot, hlen]
      simp

theorem C5_result_invariants_witness :
    (R0.completed_steps = (R0.results.filter (fun r => r.success)).length ∧
     (R0.success = true ↔ (R0.completed_steps = R0.results.length ∧ 0 < R0.results.length)) ∧
     R0.results.length ≤ R0.total_steps) ∧
    (Rc.completed_steps = (Rc.results.filter (fun r => r.success)).length ∧
     (Rc.success = true ↔ (Rc.completed_steps = Rc.results.length ∧ 0 < Rc.results.length)) ∧
     Rc.results.length ≤ Rc.total_steps) :=
  ⟨C5_result_invariants.1 reviewOk cfg0 "/" "code-review" "t" Option.none false R0 [] rfl,
   C5_result_invariants.2 reviewOk ["review"] "t" Option.none false Rc rfl⟩

/-! ### C7 -/

/-- C7 (counterexample): in the program's actual `feature-dev` run —
resolved through the config collaborator, whose validated non-empty default
always shadows the built-in template, so the code step carries no
`context_mapping` — a planner succeeding with output `"PLAN-XYZ"` leaves the
coder's received context with `plan_output = "PLAN-XYZ"` but with no
`implementation_plan` key at all, contradicting the claim's `feature-dev`
scenario. -/
theorem C7_context_remap_cex :
    ((execute_workflow planXYZ defaultConfigWorkflows "/" "feature-dev" "t" Option.none
          false).toOption.bind
        (fun p => p.1.results[1]?.map
          (fun r => (ctxGet r.context "implementation_plan", ctxGet r.context "plan_output"))))
      = some (Option.none, some (Value.str "PLAN-XYZ")) := rfl

/-- C7 (amended): the context handed to an agent is the remapped copy of the
working context: every `(src, dst)` mapping pair with `src` present in the
working context (and `dst` not shadowed by a duplicate destination) makes
`dst` read as the working context's value of `src`; keys that are not
mapping destinations read exactly as in the working context (the working
context itself is a separate map the remap never writes to).  In the
`feature-dev` run, however, the config-resolved steps carry an empty
`context_mapping` (the built-in `plan_output → implementation_plan` edge is
shadowed), so when the planner succeeds with output `"PLAN-XYZ"` the code
step's agent receives the plain working-context copy: `plan_output =
"PLAN-XYZ"` and no `implementation_plan` key. -/
theorem C7_context_remap :
    (∀ (ctx : Ctx) (mapping : List (String × String)), (mapping.map Prod.snd).Nodup →
       ∀ src dst, (src, dst) ∈ mapping → ctxContains ctx src = true →
         ctxGet (applyContextMapping ctx mapping) dst = ctxGet ctx src) ∧
    (∀ (ctx : Ctx) (mapping : List (String × String)) (k : String),
       k ∉ mapping.map Prod.snd →
       ctxGet (applyContextMapping ctx mapping) k = ctxGet ctx k) ∧
    ((execute_workflow planXYZ defaultConfigWorkflows "/" "feature-dev" "t" Option.none
          false).toOption.bind
        (fun p => p.1.results[1]?.map
          (fun r => (ctxGet r.context "implementation_plan", ctxGet r.context "plan_output"))))
      = some (Option.none, some (Value.str "PLAN-XYZ")) := by
  refine ⟨?_, ?_, rfl⟩
  · intro ctx mapping hnd src dst hmem hsrc
    exact foldl_remapStep_get_of_mem ctx mapping ctx src dst hnd hmem hsrc
  · intro ctx mapping k hk
    exact foldl_remapStep_get_of_not_mem ctx k mapping ctx hk

def cA : Ctx := [("a", Value.str "1")]

theorem C7_context_remap_witness :
    ctxGet (applyContextMapping cA [("a", "b")]) "b" = ctxGet cA "a" ∧
    ctxGet (applyContextMapping cA [("a", "b")]) "a" = ctxGet cA "a" :=
  ⟨C7_context_remap.1 cA [("a", "b")] (by decide) "a" "b" (by decide) rfl,
   C7_context_remap.2.1 cA [("a", "b")] "a" (by decide)⟩

/-! ### C8 -/

/-- C8 (counterexample): a custom-workflow step does receive a
per-agent-type templated task: with an echo stub,
`create_custom_workflow(["plan"], "t")` hands the planner the task
`"Create a detailed plan for: t"`, not the caller's `"t"`. -/
theorem C8_task_template_cex :
    ((create_custom_workflow echoTask ["plan"] "t" Option.none false).toOption.bind
        (fun R => R.results[0]?.map (fun r => r.task)))
      = some "Create a detailed plan for: t" ∧
    ("Create a detailed plan for: t" : String) ≠ "t" :=
  ⟨rfl, by decide⟩

/-- C8 (amended): `create_custom_workflow` routes every step through the
same `_execute_step` path as `execute_workflow`, so each step's agent
receives the task produced by `_customize_task_for_step` for its agent
type — the per-agent-type templates are applied, and the caller's raw task
string is not passed through unchanged. -/
theorem C8_task_template_amended :
    ∀ (t task : String), t ∈ registeredAgents →
      ((create_custom_workflow echoTask [t] task Option.none false).toOption.bind
          (fun R => R.results[0]?.map (fun r => r.task)))
        = some (customizeTaskForStep
            { agent_type := t, description := "Execute " ++ t ++ " agent",
              depends_on := [], context_mapping := [] } task) := by
  intro t task ht
  simp only [registeredAgents, List.mem_cons, List.not_mem_nil, or_false] at ht
  rcases ht with rfl | rfl | rfl | rfl <;> rfl

theorem C8_task_template_witness :
    ((create_custom_workflow echoTask ["plan"] "x" Option.none false).toOption.bind
        (fun R => R.results[0]?.map (fun r => r.task)))
      = some (customizeTaskForStep
          { agent_type := "plan", description := "Execute " ++ "plan" ++ " agent",
            depends_on := [], context_mapping := [] } "x") :=
  C8_task_template_amended "plan" "x" (by decide)

/-! ### C9 -/

/-- C9 (counterexample): with caller context `{"a": "1"}`, after
`execute_workflow("code-review", "t", ...)` the caller's dict has gained
`main_task`, `directory` and the review output keys — it is no longer
`{"a": "1"}` — and the returned `initial_context` snapshot, copied before
`main_task` was inserted, does not contain `main_task`. -/
theorem C9_initial_context_cex :
    ((execute_workflow reviewOk cfg0 "/" "code-review" "t"
          (some [("a", Value.str "1")]) false).toOption.map
        (fun p => (p.2.map Prod.fst, ctxContains (p.1.initial_context.getD []) "main_task")))
      = some (["a", "main_task", "directory", "review_output", "review_result"], false) ∧
    (["a", "main_task", "directory", "review_output", "review_result"] : List String)
      ≠ ["a"] :=
  ⟨rfl, by decide⟩

/-- C9 (amended): `execute_workflow` snapshots the caller's
`initial_context` before inserting `main_task`, so
`WorkflowResult.initial_context` equals the caller's original map (without
`main_task`, unless the caller supplied that key); and when the caller
passes a non-empty map, the working context aliases that dict, so after the
call the caller's map equals the final working context — in particular it
has gained the `main_task` key. -/
theorem C9_initial_context_amended :
    ∀ (B : Behavior) (cfg : String → List String) (cwd workflowName task : String)
      (d : Ctx) (stream : Bool) (R : WorkflowResult) (cd : Ctx),
      execute_workflow B cfg cwd workflowName task (some d) stream = Except.ok (R, cd) →
      R.initial_context = some d ∧
      (d ≠ [] → cd = R.final_context.getD [] ∧ ctxContains cd "main_task" = true) := by
  intro B cfg cwd workflowName task d stream R cd h
  obtain ⟨s, hrun, -, -, -, -, hinit, hfin, hcd⟩ :=
    execute_workflow_ok_spec B cfg cwd workflowName task (some d) stream R cd h
  refine ⟨by simpa using hinit, ?_⟩
  intro hd
  have hde : d.isEmpty = false := by
    cases d
    · exact absurd rfl hd
    · rfl
  have hcd' : cd = s.ctx := by
    rw [hcd]
    simp [callerDictAfter, hde]
  have hmain : ctxContains s.ctx "main_task" = true :=
    runSteps_contains B task stream "main_task" _ _ _ hrun
      (initialWorkingContext_contains_main_task task cwd (some d))
  constructor
  · rw [hcd', hfin]
    rfl
  · rw [hcd']
    exact hmain

theorem C9_initial_context_witness :
    R1.initial_context = some [("a", Value.str "1")] ∧
    (fc1 = R1.final_context.getD [] ∧ ctxContains fc1 "main_task" = true) := by
  have h := C9_initial_context_amended reviewOk cfg0 "/" "code-review" "t"
      [("a", Value.str "1")] false R1 fc1 rfl
  exact ⟨h.1, h.2 (List.cons_ne_nil _ _)⟩

/-! ### C10 -/

/-- C10: before the first step of every `execute_workflow` run the working
context contains `main_task` and `directory` — `directory` being the process
working directory when the caller's `initial_context` supplied none — and
therefore every context handed to an agent during the run, as well as the
returned `final_context`, contains both keys. -/
theorem C10_directory_key :
    (∀ (task cwd : String) (init : Option Ctx),
       ctxContains (initialWorkingContext task cwd init) "main_task" = true ∧
       ctxContains (initialWorkingContext task cwd init) "directory" = true ∧
       (ctxContains (init.getD []) "directory" = false →
         ctxGet (initialWorkingContext task cwd init) "directory" = some (Value.str cwd))) ∧
    (∀ (B : Behavior) (cfg : String → List String) (cwd workflowName task : String)
       (init : Option Ctx) (stream : Bool) (c : Ctx),
       c ∈ runStepsCalls B task stream (getWorkflowDefinition cfg workflowName)
             ⟨initialWorkingContext task cwd init, [], []⟩ →
       ctxContains c "main_task" = true ∧ ctxContains c "directory" = true) ∧
    (∀ (B : Behavior) (cfg : String → List String) (cwd workflowName task : String)
       (init : Option Ctx) (stream : Bool) (R : WorkflowResult) (cd : Ctx),
       execute_workflow B cfg cwd workflowName task init stream = Except.ok (R, cd) →
       ctxContains (R.final_context.getD []) "main_task" = true ∧
       ctxContains (R.final_context.getD []) "directory" = true) := by
  refine ⟨?_, ?_, ?_⟩
  · intro task cwd init
    exact ⟨initialWorkingContext_contains_main_task task cwd init,
           initialWorkingContext_contains_directory task cwd init,
           initialWorkingContext_directory_default task cwd init⟩
  · intro B cfg cwd workflowName task init stream c hc
    exact ⟨runStepsCalls_contains B task stream "main_task" _ _
             (initialWorkingContext_contains_main_task task cwd init) c hc,
           runStepsCalls_contains B task stream "directory" _ _
             (initialWorkingContext_contains_directory task cwd init) c hc⟩
  · intro B cfg cwd workflowName task init stream R cd h
    obtain ⟨s, hrun, -, -, -, -, -, hfin, -⟩ :=
      execute_workflow_ok_spec B cfg cwd workflowName task init stream R cd h
    rw [hfin]
    exact ⟨runSteps_contains B task stream "main_task" _ _ _ hrun
             (initialWorkingContext_contains_main_task task cwd init),
           runSteps_contains B task stream "directory" _ _ _ hrun
             (initialWorkingContext_contains_directory task cwd init)⟩

/-- The context received by the reviewer in the concrete `code-review` run. -/
def callCtx0 : Ctx := [("main_task", Value.str "t"), ("directory", Value.str "/")]

theorem C10_directory_key_witness :
    ctxGet (initialWorkingContext "t" "/" Option.none) "directory" = some (Value.str "/") ∧
    (ctxContains callCtx0 "main_task" = true ∧ ctxContains callCtx0 "directory" = true) ∧
    (ctxContains (R0.final_context.getD []) "main_task" = true ∧
     ctxContains (R0.final_context.getD []) "directory" = true) := by
  refine ⟨(C10_directory_key.1 "t" "/" Option.none).2.2 rfl, ?_,
          C10_directory_key.2.2 reviewOk cfg0 "/" "code-review" "t" Option.none false R0 [] rfl⟩
  refine C10_directory_key.2.1 reviewOk cfg0 "/" "code-review" "t" Option.none false callCtx0 ?_
  show callCtx0 ∈ [callCtx0]
  exact List.mem_singleton_self _

end LocalAgents
